import Mathlib

/-!
Shallow embedding of the Mean-Reversion Gap Strategy trading bot
(config.py, risk_management.py, engine.py) and proofs about it.

Python floats are modelled as exact rationals; Python's banker's
rounding (round half to even) is modelled by `roundHalfEven`;
Python's `int()` truncation toward zero by `ratTrunc`.
-/

/-- Python `round(x)`: round half to even (banker's rounding). -/
def roundHalfEven (x : ℚ) : ℤ :=
  if x - ⌊x⌋ < 1/2 then ⌊x⌋
  else if 1/2 < x - ⌊x⌋ then ⌊x⌋ + 1
  else if ⌊x⌋ % 2 = 0 then ⌊x⌋ else ⌊x⌋ + 1

/-- Python `round(x, 2)`: round to two decimal places, half to even. -/
def round2 (x : ℚ) : ℚ := (roundHalfEven (x * 100) : ℚ) / 100

/-- Python `int(x)` on a rational: truncation toward zero. -/
def ratTrunc (x : ℚ) : ℤ := x.num / (x.den : ℤ)

def SYMBOLS : List String :=
  ["XAUUSD", "BTCUSD", "US30", "USDJPY", "GBPJPY", "EURGBP",
   "ETHUSD", "USOIL", "AUDJPY", "XAGUSD", "EURUSD", "GBPUSD"]

def TIMEFRAMES : List Nat := [5, 15, 30]

def RISK_PER_TRADE : ℚ := 50

/-- RISK_REWARD_RATIO in config.py. -/
def RISK_REWARD_FACTOR : ℚ := 5

def STOP_LOSS_ATR_FACTOR : ℚ := 3/2

def TRAILING_STOP_ATR_FACTOR : ℚ := 1

def ORDER_EXPIRATION_BARS : Int := 5

def MIN_LOT_SIZE : ℚ := 1/100

def MAX_LOT_SIZE : ℚ := 1

def MAX_ALLOWED_LOT_SIZE : ℚ := 1

def MIN_MA_GAP : ℚ := 3/5

def ENABLE_BUY : Bool := true

def ENABLE_SELL : Bool := true

def MAX_TRADES_PER_SYMBOL_TF : Nat := 1

def MAX_GLOBAL_TRADES : Nat := 15

def MIN_BARS_BETWEEN_TRADES : Int := 5

def LIMIT_ORDER_DISTANCE : ℚ := 2

def ENABLE_SESSION : Bool := true

def SUNDAY_OPEN_HOUR : Nat := 22

def SUNDAY_OPEN_MIN : Nat := 15

def DAILY_CLOSE_HOUR : Nat := 21

def DAILY_CLOSE_MIN : Nat := 45

def DAILY_LOSS_PERCENT : ℚ := 5

def MAX_DRAWDOWN_PERCENT : ℚ := 10

def MAX_SPREAD_MULTIPLIER : ℚ := 3

def BASE_MAGIC : Nat := 10000

/-- Per-symbol settings record (SYMBOL_SETTINGS values in config.py). -/
structure SymSettings where
  slFactor : ℚ
  minMaGap : ℚ
  atr1Period : Nat
  atr2Period : Nat
  rsiUpper : ℚ
  rsiLower : ℚ
  trailingFactor : ℚ
deriving Repr, DecidableEq

/-- Defaults used by `settings.get(...)` when a key is absent. -/
def default_settings : SymSettings :=
  { slFactor := STOP_LOSS_ATR_FACTOR, minMaGap := MIN_MA_GAP,
    atr1Period := 10, atr2Period := 20, rsiUpper := 70, rsiLower := 30,
    trailingFactor := TRAILING_STOP_ATR_FACTOR }

/-- SYMBOL_SETTINGS table of config.py (pointMultiplier omitted: the
dollar-per-point economics enter the model as an explicit input). -/
def symbol_settings (s : String) : SymSettings :=
  if s = "XAUUSD" then ⟨2, 3/5, 10, 20, 70, 30, 1⟩
  else if s = "BTCUSD" then ⟨3/2, 3/5, 10, 20, 75, 25, 1⟩
  else if s = "US30" then ⟨3/2, 4/5, 10, 20, 70, 30, 1⟩
  else if s = "USDJPY" then ⟨3/2, 3/5, 8, 14, 70, 30, 1⟩
  else if s = "GBPJPY" then ⟨3/2, 3/5, 8, 14, 70, 30, 1⟩
  else if s = "EURGBP" then ⟨3/2, 3/5, 8, 14, 70, 30, 1⟩
  else if s = "ETHUSD" then ⟨3/2, 3/5, 10, 20, 75, 25, 1⟩
  else if s = "USOIL" then ⟨3/2, 3/5, 10, 20, 70, 30, 2⟩
  else if s = "AUDJPY" then ⟨3/2, 3/5, 8, 14, 70, 30, 1⟩
  else if s = "XAGUSD" then ⟨2, 3/5, 10, 20, 70, 30, 1⟩
  else if s = "EURUSD" then ⟨3/2, 3/5, 8, 14, 70, 30, 1⟩
  else if s = "GBPUSD" then ⟨3/2, 3/5, 8, 14, 70, 30, 1⟩
  else default_settings

/-- RiskManager.calculate_lot_size.  The symbol-dependent broker data
(dollar per point, contract size, volume step) are explicit inputs. -/
def calculate_lot_size (dpp contract_size volume_step entry sl risk_amount : ℚ) : ℚ :=
  if entry = 0 ∨ sl = 0 ∨ entry = sl then 0
  else if dpp = 0 then 0
  else
    let risk_points := |entry - sl|
    let value_per_point_per_lot := dpp * contract_size
    let risk_per_lot := risk_points * value_per_point_per_lot
    if risk_per_lot ≤ 0 then 0
    else
      let lots0 := risk_amount / risk_per_lot
      let max_lot := min MAX_LOT_SIZE MAX_ALLOWED_LOT_SIZE
      let lots1 := if lots0 < MIN_LOT_SIZE then MIN_LOT_SIZE
        else if max_lot < lots0 then max_lot else lots0
      let lots2 := if 0 < volume_step
        then volume_step * (roundHalfEven (lots1 / volume_step) : ℚ) else lots1
      round2 lots2

/-- RiskManager.adjust_risk_for_fixed_dollar. -/
def adjust_risk_for_fixed_dollar (dpp contract_size point sl tp entry lot : ℚ)
    (isBuy : Bool) : ℚ × ℚ :=
  if dpp = 0 then (sl, tp)
  else
    let risk_per_point := dpp * contract_size * lot
    if risk_per_point ≤ 0 then (sl, tp)
    else
      let required_risk_points := RISK_PER_TRADE / risk_per_point
      if isBuy then
        let sl2 := entry - required_risk_points * point
        (sl2, entry + (entry - sl2) * RISK_REWARD_FACTOR)
      else
        let sl2 := entry + required_risk_points * point
        (sl2, entry - (sl2 - entry) * RISK_REWARD_FACTOR)

/-- Indicator snapshot consumed by the entry conditions: latest values of
the fast/slow EMA, fast/slow ATR, the latest and previous RSI, and the
current close. -/
structure Snapshot where
  maFast : ℚ
  maSlow : ℚ
  atrFast : ℚ
  atrSlow : ℚ
  rsiPrev : ℚ
  rsiLatest : ℚ
  close : ℚ
deriving Repr, DecidableEq

/-- buy_condition of process_symbol_timeframe (gap = maFast·minMaGap/100). -/
def buy_condition (enableBuy : Bool) (ind : Snapshot) (minMaGap rsiUpper : ℚ) : Bool :=
  enableBuy && decide (ind.atrFast < ind.atrSlow)
    && decide (ind.close < ind.maFast - ind.maFast * minMaGap / 100)
    && decide (ind.maSlow < ind.close)
    && decide (ind.rsiLatest < ind.rsiPrev)
    && decide (ind.rsiLatest < rsiUpper)

/-- sell_condition of process_symbol_timeframe. -/
def sell_condition (enableSell : Bool) (ind : Snapshot) (minMaGap rsiLower : ℚ) : Bool :=
  enableSell && decide (ind.atrFast < ind.atrSlow)
    && decide (ind.maFast + ind.maFast * minMaGap / 100 < ind.close)
    && decide (ind.close < ind.maSlow)
    && decide (ind.rsiPrev < ind.rsiLatest)
    && decide (rsiLower < ind.rsiLatest)

inductive Side where
  | buy
  | sell
deriving Repr, DecidableEq

/-- Order-placement branch structure of process_symbol_timeframe
(`if buy_condition: ... elif sell_condition: ...`): Buy is evaluated
first and wins when both flags are set. -/
def order_branch (buy sell : Bool) : Option Side :=
  if buy then some Side.buy else if sell then some Side.sell else none

/-- TradingEngine.is_trading_session as a pure function of the reference
timezone (Africa/Lagos) weekday (Python convention: Monday=0 .. Sunday=6),
hour and minute. -/
def is_trading_session (weekday hour minute : Nat) : Bool :=
  if ENABLE_SESSION = false then true
  else if weekday = 6 then
    if hour < SUNDAY_OPEN_HOUR ∨ (hour = SUNDAY_OPEN_HOUR ∧ minute < SUNDAY_OPEN_MIN)
      then false else true
  else if weekday = 4 then
    if DAILY_CLOSE_HOUR < hour ∨ (hour = DAILY_CLOSE_HOUR ∧ DAILY_CLOSE_MIN ≤ minute)
      then false else true
  else if weekday = 5 then false
  else true

/-- Magic-number encoding: base + symbolIndex·1000 + timeframeIndex·10,
indices taken from the configured SYMBOLS / TIMEFRAMES lists. -/
def magic_of (s : String) (t : Nat) : Nat :=
  BASE_MAGIC + SYMBOLS.indexOf s * 1000 + TIMEFRAMES.indexOf t * 10

/-- Inputs the trailing logic reads for one open position: position data
(entry price, floating profit, volume, current stop), symbol economics
(dollar per point, point size), the relevant market price (ask for a
long, bid for a short), and the ATR-floor data used for the hardcoded
commodity subset. -/
structure TrailInput where
  entry : ℚ
  profit : ℚ
  volume : ℚ
  dpp : ℚ
  point : ℚ
  price : ℚ
  useAtrFloor : Bool
  atr : ℚ
  trailingFactor : ℚ
  curSl : ℚ
deriving Repr, DecidableEq

/-- profit_units = int(profit / RISK_PER_TRADE). -/
def profit_units (profit : ℚ) : ℤ := ratTrunc (profit / RISK_PER_TRADE)

/-- Candidate stop for a long position, with the ATR floor applied for
the hardcoded commodity subset. -/
def trail_candidate_buy (i : TrailInput) : ℚ :=
  let base := i.entry + (profit_units i.profit : ℚ)
    * (RISK_PER_TRADE / (i.volume * i.dpp)) * i.point
  if i.useAtrFloor ∧ 0 < i.atr
    then max base (i.price - i.trailingFactor * i.atr) else base

/-- Candidate stop for a short position. -/
def trail_candidate_sell (i : TrailInput) : ℚ :=
  let base := i.entry - (profit_units i.profit : ℚ)
    * (RISK_PER_TRADE / (i.volume * i.dpp)) * i.point
  if i.useAtrFloor ∧ 0 < i.atr
    then min base (i.price + i.trailingFactor * i.atr) else base

/-- Long-position trailing decision: none = no modification request. -/
def trail_decision_buy (i : TrailInput) : Option (ℚ × ℚ) :=
  if i.dpp ≤ 0 then none
  else if i.volume * i.dpp ≤ 0 then none
  else if profit_units i.profit < 1 then none
  else
    let new_sl := trail_candidate_buy i
    let new_tp := i.entry + (i.entry - new_sl) * RISK_REWARD_FACTOR
    if i.curSl < new_sl ∧ new_sl < i.price then some (new_sl, new_tp) else none

/-- Short-position trailing decision. -/
def trail_decision_sell (i : TrailInput) : Option (ℚ × ℚ) :=
  if i.dpp ≤ 0 then none
  else if i.volume * i.dpp ≤ 0 then none
  else if profit_units i.profit < 1 then none
  else
    let new_sl := trail_candidate_sell i
    let new_tp := i.entry - (new_sl - i.entry) * RISK_REWARD_FACTOR
    if (i.curSl = 0 ∨ new_sl < i.curSl) ∧ i.price < new_sl
      then some (new_sl, new_tp) else none

/-- One trailing recomputation applied to the tracked stop of a long
position: the stop is replaced only when a modification is emitted. -/
def trail_step_buy (c : ℚ) (i : TrailInput) : ℚ :=
  match trail_decision_buy { i with curSl := c } with
  | some (s, _) => s
  | none => c

/-- A pending order tracked by the engine (class PendingOrder). -/
structure TrackedOrder where
  ticket : Nat
  symbol : String
  timeframe : Nat
  placementTime : ℚ
  placementBar : Int
  magic : Nat
deriving Repr, DecidableEq

/-- Result of the gateway cancel request (mt5.order_send with
TRADE_ACTION_REMOVE): a result reporting success, a result reporting
failure, or an exception raised by the call. -/
inductive CancelOutcome where
  | ok
  | failed
  | raised
deriving Repr, DecidableEq

/-- What the cleanup loop body does with one tracked order. -/
inductive OrderAction where
  | drop
  | keep
  | cancelDrop
  | cancelKeep
deriving Repr, DecidableEq

/-- Decision of the cleanup loop body for one tracked order: silently
dropped when its ticket is no longer reported live; kept when bar data is
unavailable or it is not yet expired; when expired, a cancel request is
issued and the entry is removed from the ledger without consulting the
request's result — it survives only if the call raises (the except path
skips the removal). -/
def order_action (live : List Nat) (bars : String → Nat → Option Int)
    (cancel : Nat → CancelOutcome) (o : TrackedOrder) : OrderAction :=
  if ¬ live.contains o.ticket then OrderAction.drop
  else match bars o.symbol o.timeframe with
    | none => OrderAction.keep
    | some b =>
      if ORDER_EXPIRATION_BARS ≤ b - o.placementBar then
        match cancel o.ticket with
        | CancelOutcome.raised => OrderAction.cancelKeep
        | _ => OrderAction.cancelDrop
      else OrderAction.keep

/-- TradingEngine.cleanup_orders over the tracked-order list. Returns the
remaining ledger and the tickets for which cancel requests were issued. -/
def cleanup_orders (orders : List TrackedOrder) (live : List Nat)
    (bars : String → Nat → Option Int) (cancel : Nat → CancelOutcome) :
    List TrackedOrder × List Nat :=
  match orders with
  | [] => ([], [])
  | o :: rest =>
    let res := cleanup_orders rest live bars cancel
    match order_action live bars cancel o with
    | OrderAction.drop => res
    | OrderAction.keep => (o :: res.1, res.2)
    | OrderAction.cancelDrop => (res.1, o.ticket :: res.2)
    | OrderAction.cancelKeep => (o :: res.1, o.ticket :: res.2)

/-- Broker data for one symbol (mt5.symbol_info plus the derived
dollar-per-point value). -/
structure Quote where
  point : ℚ
  ask : ℚ
  bid : ℚ
  dpp : ℚ
  contractSize : ℚ
  volumeStep : ℚ
  spread : ℚ
deriving Repr, DecidableEq

/-- An open position as reported by the gateway (mt5.positions_get). -/
structure Position where
  ticket : Nat
  symbol : String
  magic : Nat
  isBuy : Bool
  volume : ℚ
  priceOpen : ℚ
  sl : ℚ
  tp : ℚ
  profit : ℚ
deriving Repr, DecidableEq

/-- A pending order as reported by the gateway (mt5.orders_get). -/
structure OrderInfo where
  ticket : Nat
  symbol : String
  magic : Nat
deriving Repr, DecidableEq

/-- The mutable fields of TradingEngine. -/
structure EngineState where
  equityHigh : ℚ
  equityAtStart : ℚ
  dailyProfitLoss : ℚ
  lastTradingDay : Option Nat
  activeOrders : List TrackedOrder
  lastTradeBar : String → Nat → Int
  lastTradeTime : String → Nat → ℚ
  atrCurrent : String → Nat → ℚ

/-- External world as observed during one timer tick: connectivity,
account equity, the reference-timezone clock, the cached position/order
snapshot, and the per-symbol market data and gateway responses. -/
structure TickInput where
  connected : Bool
  equity : Option ℚ
  date : Nat
  weekday : Nat
  hour : Nat
  minute : Nat
  positions : List Position
  liveOrders : List OrderInfo
  quote : String → Option Quote
  bars : String → Nat → Option Int
  snap : String → Nat → Option Snapshot
  cancel : Nat → CancelOutcome
  orderAccepted : String → Nat → Option Nat
  now : ℚ

/-- Which early-return branch of on_timer ended the tick. -/
inductive HaltReason where
  | notConnected
  | noAccount
  | dailyLoss
  | drawdown
  | sessionOff
deriving Repr, DecidableEq

/-- Observable effects of one process_symbol_timeframe call. -/
structure PSTEffect where
  symbol : String
  timeframe : Nat
  trailInvoked : Bool
  modifications : List (Nat × ℚ × ℚ)
  placed : Option (Nat × Bool × ℚ)
deriving Repr, DecidableEq

/-- Observable effects of one on_timer tick. -/
structure TickEffects where
  halted : Option HaltReason
  cleanupRan : Bool
  cancels : List Nat
  perSymbol : List PSTEffect
deriving Repr, DecidableEq

/-- Point update of a two-argument map. -/
def upd2 {α : Type} (f : String → Nat → α) (s : String) (t : Nat) (v : α) :
    String → Nat → α :=
  fun s2 t2 => if s2 = s ∧ t2 = t then v else f s2 t2

/-- get_bars_count: first field of the latest bar, 0 when unavailable. -/
def get_bars_count (inp : TickInput) (s : String) (t : Nat) : Int :=
  (inp.bars s t).getD 0

/-- Indicators.get_spread: spread·point, 0 when the quote is missing. -/
def get_spread (q : Option Quote) : ℚ :=
  match q with
  | some q => q.spread * q.point
  | none => 0

/-- Indicators.get_avg_spread: 50 synchronous samples of the same
instantaneous spread, so the average equals the spread when positive and
0 otherwise. -/
def get_avg_spread (q : Option Quote) : ℚ :=
  let sp := get_spread q
  if 0 < sp then sp else 0

/-- TradingEngine.count_orders: positions plus pending orders matching
both symbol and magic. -/
def count_orders (positions : List Position) (orders : List OrderInfo)
    (symbol : String) (magic : Nat) : Nat :=
  (positions.filter (fun p => p.symbol == symbol && p.magic == magic)).length +
  (orders.filter (fun o => o.symbol == symbol && o.magic == magic)).length

/-- The hardcoded commodity subset given ATR-floor trailing. -/
def ATR_FLOOR_SYMBOLS : List String := ["XAUUSD", "USOIL", "XAGUSD"]

/-- TradingEngine.manage_existing_positions: the stop/take-profit
modification requests emitted for the positions of this (symbol,
timeframe); engine state is not changed. -/
def manage_existing_positions (st : EngineState) (inp : TickInput) (symbol : String)
    (tf : Nat) (trailingFactor : ℚ) : List (Nat × ℚ × ℚ) :=
  inp.positions.foldr (fun p acc =>
    if p.symbol ≠ symbol then acc
    else if p.magic ≠ magic_of symbol tf then acc
    else
      match inp.quote symbol with
      | none => acc
      | some q =>
        let i : TrailInput :=
          { entry := p.priceOpen, profit := p.profit, volume := p.volume,
            dpp := q.dpp, point := q.point,
            price := if p.isBuy then q.ask else q.bid,
            useAtrFloor := ATR_FLOOR_SYMBOLS.contains symbol,
            atr := st.atrCurrent symbol tf,
            trailingFactor := trailingFactor, curSl := p.sl }
        match (if p.isBuy then trail_decision_buy i else trail_decision_sell i) with
        | some (s2, t2) => (p.ticket, s2, t2) :: acc
        | none => acc) []

/-- The no-op effect record of a process_symbol_timeframe early return. -/
def noEffect (symbol : String) (tf : Nat) : PSTEffect :=
  ⟨symbol, tf, false, [], none⟩

/-- TradingEngine.process_symbol_timeframe: the global capacity check,
bar-spacing check, indicator fetch, spread filter, signal evaluation,
trailing management, per-instrument exposure cap, sizing and order
placement for one (symbol, timeframe). -/
def process_symbol_timeframe (st : EngineState) (inp : TickInput) (symbol : String)
    (tf : Nat) : EngineState × PSTEffect :=
  if MAX_GLOBAL_TRADES ≤ inp.positions.length + inp.liveOrders.length then
    (st, noEffect symbol tf)
  else
    let current_bars := get_bars_count inp symbol tf
    if current_bars - st.lastTradeBar symbol tf < MIN_BARS_BETWEEN_TRADES then
      (st, noEffect symbol tf)
    else
      match inp.snap symbol tf with
      | none => (st, noEffect symbol tf)
      | some ind =>
        let settings := symbol_settings symbol
        let st1 := { st with atrCurrent := upd2 st.atrCurrent symbol tf ind.atrFast }
        if get_avg_spread (inp.quote symbol) * MAX_SPREAD_MULTIPLIER
            < get_spread (inp.quote symbol) then
          (st1, noEffect symbol tf)
        else
          let buy := buy_condition ENABLE_BUY ind settings.minMaGap settings.rsiUpper
          let sell := sell_condition ENABLE_SELL ind settings.minMaGap settings.rsiLower
          let mods := manage_existing_positions st1 inp symbol tf settings.trailingFactor
          let magic := magic_of symbol tf
          let existing := count_orders inp.positions inp.liveOrders symbol magic
          let eff : PSTEffect := ⟨symbol, tf, true, mods, none⟩
          if (buy = true ∨ sell = true) ∧ existing < MAX_TRADES_PER_SYMBOL_TF then
            match inp.quote symbol with
            | none => (st1, eff)
            | some q =>
              let pip_size := q.point * 10
              let atr_value := ind.atrFast
              if buy then
                let price := q.ask - LIMIT_ORDER_DISTANCE * pip_size
                let sl0 := price - settings.slFactor * atr_value
                let tp0 := price + settings.slFactor * atr_value * RISK_REWARD_FACTOR
                let initial_lots :=
                  calculate_lot_size q.dpp q.contractSize q.volumeStep price sl0 RISK_PER_TRADE
                let adj :=
                  if MAX_ALLOWED_LOT_SIZE ≤ initial_lots then
                    let a := adjust_risk_for_fixed_dollar q.dpp q.contractSize q.point
                      sl0 tp0 price MAX_ALLOWED_LOT_SIZE true
                    (a.1, a.2, MAX_ALLOWED_LOT_SIZE)
                  else (sl0, tp0, initial_lots)
                if adj.2.2 < MIN_LOT_SIZE then (st1, eff)
                else if 0 < adj.2.2 then
                  match inp.orderAccepted symbol tf with
                  | some ticket =>
                    ({ st1 with
                        lastTradeBar := upd2 st1.lastTradeBar symbol tf current_bars,
                        lastTradeTime := upd2 st1.lastTradeTime symbol tf inp.now,
                        activeOrders := st1.activeOrders
                          ++ [⟨ticket, symbol, tf, inp.now, current_bars, magic⟩] },
                      { eff with placed := some (ticket, true, adj.2.2) })
                  | none => (st1, eff)
                else (st1, eff)
              else
                let price := q.bid + LIMIT_ORDER_DISTANCE * pip_size
                let sl0 := price + settings.slFactor * atr_value
                let tp0 := price - settings.slFactor * atr_value * RISK_REWARD_FACTOR
                let initial_lots :=
                  calculate_lot_size q.dpp q.contractSize q.volumeStep price sl0 RISK_PER_TRADE
                let adj :=
                  if MAX_ALLOWED_LOT_SIZE ≤ initial_lots then
                    let a := adjust_risk_for_fixed_dollar q.dpp q.contractSize q.point
                      sl0 tp0 price MAX_ALLOWED_LOT_SIZE false
                    (a.1, a.2, MAX_ALLOWED_LOT_SIZE)
                  else (sl0, tp0, initial_lots)
                if adj.2.2 < MIN_LOT_SIZE then (st1, eff)
                else if 0 < adj.2.2 then
                  match inp.orderAccepted symbol tf with
                  | some ticket =>
                    ({ st1 with
                        lastTradeBar := upd2 st1.lastTradeBar symbol tf current_bars,
                        lastTradeTime := upd2 st1.lastTradeTime symbol tf inp.now,
                        activeOrders := st1.activeOrders
                          ++ [⟨ticket, symbol, tf, inp.now, current_bars, magic⟩] },
                      { eff with placed := some (ticket, false, adj.2.2) })
                  | none => (st1, eff)
                else (st1, eff)
          else (st1, eff)

/-- All configured (symbol, timeframe) pairs, in iteration order. -/
def ALL_PAIRS : List (String × Nat) :=
  SYMBOLS.flatMap (fun s => TIMEFRAMES.map (fun t => (s, t)))

/-- The nested per-symbol/per-timeframe loop of on_timer. -/
def process_all (st : EngineState) (inp : TickInput) : EngineState × List PSTEffect :=
  ALL_PAIRS.foldl (fun acc p =>
    let r := process_symbol_timeframe acc.1 inp p.1 p.2
    (r.1, acc.2 ++ [r.2])) (st, [])

/-- TradingEngine.is_new_trading_day: true on the first tick of a new
reference-timezone calendar date falling on Sunday through Friday; it
also records that date. -/
def is_new_trading_day (st : EngineState) (inp : TickInput) : EngineState × Bool :=
  if st.lastTradingDay ≠ some inp.date ∧ [6, 0, 1, 2, 3, 4].contains inp.weekday then
    ({ st with lastTradingDay := some inp.date }, true)
  else (st, false)

/-- The daily rollover of on_timer: on the first tick of a new trading
day, re-baseline equityAtStart and reset dailyProfitLoss. -/
def apply_rollover (st : EngineState) (inp : TickInput) (eq : ℚ) : EngineState :=
  let r := is_new_trading_day st inp
  if r.2 then { r.1 with equityAtStart := eq, dailyProfitLoss := 0 } else r.1

/-- The state updates of on_timer preceding the risk gates: the equity
high-watermark bump and the daily rollover re-baselining. -/
def pre_gate (st : EngineState) (inp : TickInput) (eq : ℚ) : EngineState :=
  apply_rollover (if st.equityHigh < eq then { st with equityHigh := eq } else st) inp eq

/-- TradingEngine.calculate_drawdown. -/
def drawdown_of (high cur : ℚ) : ℚ :=
  if high = 0 then 0 else (high - cur) / high * 100

/-- TradingEngine.on_timer: one 5-second tick. -/
def onTimer (st : EngineState) (inp : TickInput) : EngineState × TickEffects :=
  if inp.connected = false then (st, ⟨some HaltReason.notConnected, false, [], []⟩)
  else
    match inp.equity with
    | none => (st, ⟨some HaltReason.noAccount, false, [], []⟩)
    | some eq =>
      let st3 := pre_gate st inp eq
      if st3.dailyProfitLoss ≤ -(st3.equityAtStart * (DAILY_LOSS_PERCENT / 100)) then
        (st3, ⟨some HaltReason.dailyLoss, false, [], []⟩)
      else if MAX_DRAWDOWN_PERCENT ≤ drawdown_of st3.equityHigh eq then
        (st3, ⟨some HaltReason.drawdown, false, [], []⟩)
      else
        let cr := cleanup_orders st3.activeOrders (inp.liveOrders.map (fun o => o.ticket))
          inp.bars inp.cancel
        let st4 := { st3 with activeOrders := cr.1 }
        if ENABLE_SESSION = true ∧ is_trading_session inp.weekday inp.hour inp.minute = false then
          (st4, ⟨some HaltReason.sessionOff, true, cr.2, []⟩)
        else
          let pa := process_all st4 inp
          (pa.1, ⟨none, true, cr.2, pa.2⟩)

/-- TradingEngine.__init__: the initial engine state, given the account
equity reported at startup (falls back to 10000 when unavailable). -/
def init_state (e : Option ℚ) : EngineState :=
  { equityHigh := e.getD 10000, equityAtStart := e.getD 10000, dailyProfitLoss := 0,
    lastTradingDay := none, activeOrders := [],
    lastTradeBar := fun _ _ => -10, lastTradeTime := fun _ _ => 0,
    atrCurrent := fun _ _ => 0 }

/-- Engine states reachable from startup by any sequence of ticks. -/
inductive Reachable : EngineState → Prop where
  | init : ∀ e : Option ℚ, Reachable (init_state e)
  | step : ∀ st inp, Reachable st → Reachable (onTimer st inp).1

/-- An engine state mid-day with a given daily P&L (equity at session
start 10000, limit 500). -/
def witness_state (pnl : ℚ) : EngineState :=
  { equityHigh := 10000, equityAtStart := 10000, dailyProfitLoss := pnl,
    lastTradingDay := some 1, activeOrders := [],
    lastTradeBar := fun _ _ => -10, lastTradeTime := fun _ _ => 0,
    atrCurrent := fun _ _ => 0 }

/-- A connected mid-week tick with equity 10000 and no market data. -/
def witness_input : TickInput :=
  { connected := true, equity := some 10000, date := 1, weekday := 1, hour := 12, minute := 0,
    positions := [], liveOrders := [], quote := fun _ => none, bars := fun _ _ => none,
    snap := fun _ _ => none, cancel := fun _ => CancelOutcome.ok,
    orderAccepted := fun _ _ => none, now := 0 }

/-- A connected mid-week tick reporting zero account equity. -/
def zero_equity_input : TickInput :=
  { connected := true, equity := some 0, date := 1, weekday := 1, hour := 12, minute := 0,
    positions := [], liveOrders := [], quote := fun _ => none, bars := fun _ _ => none,
    snap := fun _ _ => none, cancel := fun _ => CancelOutcome.ok,
    orderAccepted := fun _ _ => none, now := 0 }

/-- A position with a magic number outside the engine's range. -/
def cap_dummy_position (k : Nat) : Position :=
  ⟨k, "EURUSD", 0, true, 0, 0, 0, 0, 0⟩

/-- A profitable long XAUUSD M5 position carrying the engine's magic. -/
def cap_good_position : Position :=
  ⟨100, "XAUUSD", 10000, true, 1, 100, 0, 0, 50⟩

/-- XAUUSD broker data: point 1, ask 200, bid 199, dollar-per-point 1,
contract size 1, volume step 0.01, zero spread. -/
def cap_quote : Quote := ⟨1, 200, 199, 1, 1, 1/100, 0⟩

/-- A connected mid-week tick with 15 open positions (at the global cap),
among them the profitable XAUUSD position. -/
def cap_input : TickInput :=
  { connected := true, equity := some 10000, date := 1, weekday := 1, hour := 12, minute := 0,
    positions := cap_good_position :: (List.range 14).map cap_dummy_position,
    liveOrders := [],
    quote := fun s => if s = "XAUUSD" then some cap_quote else none,
    bars := fun _ _ => none, snap := fun _ _ => none,
    cancel := fun _ => CancelOutcome.ok, orderAccepted := fun _ _ => none, now := 0 }

/-- The same tick with only the XAUUSD position (below the cap). -/
def uncapped_input : TickInput :=
  { cap_input with positions := [cap_good_position] }

/-- The trailing input manage_existing_positions builds for the XAUUSD
position on that tick. -/
def cap_trail_input : TrailInput :=
  { entry := 100, profit := 50, volume := 1, dpp := 1, point := 1, price := 200,
    useAtrFloor := true, atr := 0, trailingFactor := 1, curSl := 0 }

theorem roundHalfEven_abs_le (x : ℚ) : |(roundHalfEven x : ℚ) - x| ≤ 1/2 := by
  have h1 : ((⌊x⌋ : ℤ) : ℚ) ≤ x := Int.floor_le x
  have h2 : x < ((⌊x⌋ : ℤ) : ℚ) + 1 := Int.lt_floor_add_one x
  unfold roundHalfEven
  split_ifs with hf hg he <;> rw [abs_le] <;> constructor <;> push_cast <;> linarith

theorem round2_abs_le (x : ℚ) : |round2 x - x| ≤ 1/200 := by
  have h := roundHalfEven_abs_le (x * 100)
  unfold round2
  rw [abs_le] at h ⊢
  constructor
  · linarith [h.1]
  · linarith [h.2]

/-- C1 (counterexample): at the spec's own example input
(entry=2000, stop=1990, riskBudget=50, dollarPerPoint=1, contractSize=1,
volume step 0.01) the unclamped lot is 5.0 — not the claimed 0.50 — and
the returned (clamped) lot of 1.0 risks 10 dollars when held to the stop,
which is not within rounding tolerance of the 50-dollar budget. -/
theorem lot_size_spec_example_fails :
    (50 : ℚ) / (|(2000:ℚ) - 1990| * (1 * 1)) = 5 ∧
    calculate_lot_size 1 1 (1/100) 2000 1990 50 = 1 ∧
    ¬ (|calculate_lot_size 1 1 (1/100) 2000 1990 50 * (|(2000:ℚ) - 1990| * (1 * 1)) - 50|
        ≤ (|(2000:ℚ) - 1990| * (1 * 1)) * ((1/100) / 2 + 1 / 200)) := by
  have h : calculate_lot_size 1 1 (1/100) 2000 1990 50 = 1 := by
    norm_num [calculate_lot_size, round2, roundHalfEven, MIN_LOT_SIZE, MAX_LOT_SIZE,
      MAX_ALLOWED_LOT_SIZE]
  refine ⟨by norm_num, h, ?_⟩
  rw [h]
  norm_num

/-- C1 (amended): whenever entry ≠ stop, entry and stop are nonzero, the
tick economics are nonzero (riskPerLot = |entry-stop|·dollarPerPoint·contractSize > 0),
the volume step is positive, and the unclamped lot riskBudget/riskPerLot lies
inside the clamp interval [minLot, min(maxLot, maxAllowedLot)], the returned
lot size risks within step-rounding tolerance
(riskPerLot·(step/2 + 1/200)) of riskBudget dollars when held to the stop. -/
theorem lot_size_risk_bounded (dpp cs step entry sl B : ℚ)
    (he : entry ≠ 0) (hs : sl ≠ 0) (hes : entry ≠ sl)
    (hR : 0 < |entry - sl| * (dpp * cs))
    (hstep : 0 < step)
    (hmin : MIN_LOT_SIZE ≤ B / (|entry - sl| * (dpp * cs)))
    (hmax : B / (|entry - sl| * (dpp * cs)) ≤ min MAX_LOT_SIZE MAX_ALLOWED_LOT_SIZE) :
    |calculate_lot_size dpp cs step entry sl B * (|entry - sl| * (dpp * cs)) - B|
      ≤ (|entry - sl| * (dpp * cs)) * (step / 2 + 1 / 200) := by
  have hdpp : dpp ≠ 0 := by
    intro h
    rw [h, zero_mul, mul_zero] at hR
    exact lt_irrefl 0 hR
  set R := |entry - sl| * (dpp * cs) with hRdef
  have hne : ¬(entry = 0 ∨ sl = 0 ∨ entry = sl) := by
    push_neg
    exact ⟨he, hs, hes⟩
  have hRne : R ≠ 0 := ne_of_gt hR
  simp only [calculate_lot_size, ← hRdef]
  rw [if_neg hne, if_neg hdpp, if_neg (not_le.mpr hR), if_neg (not_lt.mpr hmin),
    if_neg (not_lt.mpr hmax), if_pos hstep]
  set x := B / R with hx
  set r : ℚ := (roundHalfEven (x / step) : ℚ) with hr
  have hstepne : step ≠ 0 := ne_of_gt hstep
  have h1 : |step * r - x| ≤ step / 2 := by
    have hb := roundHalfEven_abs_le (x / step)
    have : step * r - x = step * (r - x / step) := by
      field_simp
      ring
    rw [this, abs_mul, abs_of_pos hstep]
    calc step * |r - x / step| ≤ step * (1/2) := by
          exact mul_le_mul_of_nonneg_left hb (le_of_lt hstep)
      _ = step / 2 := by ring
  have h2 : |round2 (step * r) - (step * r)| ≤ 1/200 := round2_abs_le _
  have h3 : |round2 (step * r) - x| ≤ step / 2 + 1 / 200 := by
    calc |round2 (step * r) - x|
        ≤ |round2 (step * r) - (step * r)| + |step * r - x| := abs_sub_le _ _ _
      _ ≤ 1/200 + step/2 := add_le_add h2 h1
      _ = step/2 + 1/200 := by ring
  have hxR : x * R = B := by
    rw [hx]
    field_simp
  have hsplit : round2 (step * r) * R - B = (round2 (step * r) - x) * R := by
    rw [sub_mul, hxR]
  rw [hsplit, abs_mul, abs_of_pos hR]
  calc |round2 (step * r) - x| * R ≤ (step/2 + 1/200) * R :=
        mul_le_mul_of_nonneg_right h3 (le_of_lt hR)
    _ = R * (step/2 + 1/200) := by ring

/-- C1 witness: concrete instance of the amended statement at
entry=2000, stop=1950, riskBudget=50, dollarPerPoint=1, contractSize=1,
volume step 0.01, where the unclamped lot is exactly 1.0. -/
theorem lot_size_risk_bounded_witness :
    |calculate_lot_size 1 1 (1/100) 2000 1950 50 * (|(2000:ℚ) - 1950| * (1 * 1)) - 50|
      ≤ (|(2000:ℚ) - 1950| * (1 * 1)) * ((1/100) / 2 + 1 / 200) :=
  lot_size_risk_bounded 1 1 (1/100) 2000 1950 50 (by norm_num) (by norm_num)
    (by norm_num) (by norm_num) (by norm_num)
    (by norm_num [MIN_LOT_SIZE])
    (by norm_num [MAX_LOT_SIZE, MAX_ALLOWED_LOT_SIZE])

/-- C6: for positive tick economics (dollarPerPoint·contractSize·lot > 0)
and positive point size, the fixed-risk adjustment returns a stop whose
implied dollar risk lot·(|entry-stop|/point)·dollarPerPoint·contractSize
equals RISK_PER_TRADE exactly; the take-profit is the configured reward
factor times the new stop distance on the profitable side; and applying
the adjustment again to its own output with the same lot returns the same
stop/take-profit pair (idempotence). -/
theorem adjust_fixed_risk_exact (dpp cs point sl tp entry lot : ℚ) (b : Bool)
    (hrp : 0 < dpp * cs * lot) (hpt : 0 < point) :
    lot * (|entry - (adjust_risk_for_fixed_dollar dpp cs point sl tp entry lot b).1| / point)
        * dpp * cs = RISK_PER_TRADE ∧
    ((adjust_risk_for_fixed_dollar dpp cs point sl tp entry lot b).2 =
      (if b then
        entry + (entry - (adjust_risk_for_fixed_dollar dpp cs point sl tp entry lot b).1)
          * RISK_REWARD_FACTOR
      else
        entry - ((adjust_risk_for_fixed_dollar dpp cs point sl tp entry lot b).1 - entry)
          * RISK_REWARD_FACTOR)) ∧
    adjust_risk_for_fixed_dollar dpp cs point
        (adjust_risk_for_fixed_dollar dpp cs point sl tp entry lot b).1
        (adjust_risk_for_fixed_dollar dpp cs point sl tp entry lot b).2 entry lot b =
      adjust_risk_for_fixed_dollar dpp cs point sl tp entry lot b := by
  have hdpp : dpp ≠ 0 := by
    intro h
    rw [h, zero_mul, zero_mul] at hrp
    exact lt_irrefl 0 hrp
  have hreq : 0 < RISK_PER_TRADE / (dpp * cs * lot) := by
    apply div_pos _ hrp
    norm_num [RISK_PER_TRADE]
  have habs : |RISK_PER_TRADE / (dpp * cs * lot) * point| =
      RISK_PER_TRADE / (dpp * cs * lot) * point :=
    abs_of_pos (mul_pos hreq hpt)
  simp only [adjust_risk_for_fixed_dollar, if_neg hdpp, if_neg (not_le.mpr hrp)]
  cases b with
  | true =>
    refine ⟨?_, by simp, by simp⟩
    simp only [if_pos]
    rw [show entry - (entry - RISK_PER_TRADE / (dpp * cs * lot) * point)
        = RISK_PER_TRADE / (dpp * cs * lot) * point by ring, habs]
    field_simp
    ring
  | false =>
    refine ⟨?_, by simp, by simp⟩
    simp only [Bool.false_eq_true, if_neg (by simp : ¬False)]
    rw [show entry - (entry + RISK_PER_TRADE / (dpp * cs * lot) * point)
        = -(RISK_PER_TRADE / (dpp * cs * lot) * point) by ring, abs_neg, habs]
    field_simp
    ring

/-- C6 witness: the exact-risk property at a concrete input
(dollarPerPoint=1, contractSize=1, point=1, entry=2000, lot=1, buy side). -/
theorem adjust_fixed_risk_exact_witness :
    (1:ℚ) * (|(2000:ℚ) - (adjust_risk_for_fixed_dollar 1 1 1 0 0 2000 1 true).1| / 1) * 1 * 1
      = RISK_PER_TRADE :=
  (adjust_fixed_risk_exact 1 1 1 0 0 2000 1 true (by norm_num) (by norm_num)).1

/-- C9: for every indicator snapshot and settings the Buy and Sell entry
conditions are never simultaneously true (Buy needs close above the slow
MA, Sell needs close below it), and the placement logic tests Buy first,
so Buy would take priority if both flags were somehow set. -/
theorem buy_sell_exclusive_buy_first :
    (∀ (eb es : Bool) (ind : Snapshot) (g u l : ℚ),
      (buy_condition eb ind g u && sell_condition es ind g l) = false) ∧
    order_branch true true = some Side.buy := by
  constructor
  · intro eb es ind g u l
    cases hb : buy_condition eb ind g u with
    | false => simp
    | true =>
      simp only [Bool.true_and]
      rw [Bool.eq_false_iff]
      intro hs
      simp only [buy_condition, Bool.and_eq_true, decide_eq_true_eq] at hb
      simp only [sell_condition, Bool.and_eq_true, decide_eq_true_eq] at hs
      obtain ⟨⟨⟨⟨⟨-, -⟩, -⟩, ha3⟩, -⟩, -⟩ := hb
      obtain ⟨⟨⟨⟨⟨-, -⟩, -⟩, hb3⟩, -⟩, -⟩ := hs
      linarith
  · rfl

/-- C8: in the reference timezone the session gate allows trading on
Sunday exactly from the configured open time (22:15) onward — in
particular not one minute before, and exactly at the open; on Friday
exactly until the configured close time (21:45) — allowed one minute
before, blocked exactly at the close; never on Saturday; always on
Monday through Thursday. -/
theorem session_gate_exact : ∀ h m : Nat,
    (is_trading_session 6 h m = true ↔
      (SUNDAY_OPEN_HOUR < h ∨ (h = SUNDAY_OPEN_HOUR ∧ SUNDAY_OPEN_MIN ≤ m))) ∧
    (is_trading_session 4 h m = true ↔
      (h < DAILY_CLOSE_HOUR ∨ (h = DAILY_CLOSE_HOUR ∧ m < DAILY_CLOSE_MIN))) ∧
    is_trading_session 5 h m = false ∧
    is_trading_session 0 h m = true ∧ is_trading_session 1 h m = true ∧
    is_trading_session 2 h m = true ∧ is_trading_session 3 h m = true := by
  intro h m
  simp only [is_trading_session, ENABLE_SESSION, SUNDAY_OPEN_HOUR, SUNDAY_OPEN_MIN,
    DAILY_CLOSE_HOUR, DAILY_CLOSE_MIN]
  norm_num
  constructor
  · omega
  · omega

/-- C10: over all configured (symbol, timeframe) pairs the magic-number
encoding is injective, and every produced magic lies in
[BASE_MAGIC, BASE_MAGIC + symbolCount·1000). -/
theorem magic_injective_bounded :
    ∀ s t s' t', s ∈ SYMBOLS → t ∈ TIMEFRAMES → s' ∈ SYMBOLS → t' ∈ TIMEFRAMES →
      (magic_of s t = magic_of s' t' → s = s' ∧ t = t') ∧
      BASE_MAGIC ≤ magic_of s t ∧
      magic_of s t < BASE_MAGIC + SYMBOLS.length * 1000 := by
  intro s t s' t' hs ht hs' ht'
  have h1 : SYMBOLS.indexOf s < 12 := by
    have := List.indexOf_lt_length.mpr hs
    simpa [SYMBOLS] using this
  have h2 : SYMBOLS.indexOf s' < 12 := by
    have := List.indexOf_lt_length.mpr hs'
    simpa [SYMBOLS] using this
  have h3 : TIMEFRAMES.indexOf t < 3 := by
    have := List.indexOf_lt_length.mpr ht
    simpa [TIMEFRAMES] using this
  have h4 : TIMEFRAMES.indexOf t' < 3 := by
    have := List.indexOf_lt_length.mpr ht'
    simpa [TIMEFRAMES] using this
  have hlen : SYMBOLS.length = 12 := by rfl
  refine ⟨?_, ?_, ?_⟩
  · intro he
    unfold magic_of BASE_MAGIC at he
    have hidx : SYMBOLS.indexOf s = SYMBOLS.indexOf s' ∧
        TIMEFRAMES.indexOf t = TIMEFRAMES.indexOf t' := by omega
    exact ⟨(List.indexOf_inj hs hs').mp hidx.1, (List.indexOf_inj ht ht').mp hidx.2⟩
  · unfold magic_of BASE_MAGIC
    omega
  · unfold magic_of BASE_MAGIC
    rw [hlen]
    omega

/-- C10 witness: the injectivity and bound statement applied to the
concrete configured pairs (XAUUSD, M5) and (BTCUSD, M15). -/
theorem magic_injective_bounded_witness :
    (magic_of "XAUUSD" 5 = magic_of "BTCUSD" 15 → ("XAUUSD" = "BTCUSD" ∧ (5:Nat) = 15)) ∧
    BASE_MAGIC ≤ magic_of "XAUUSD" 5 ∧
    magic_of "XAUUSD" 5 < BASE_MAGIC + SYMBOLS.length * 1000 :=
  magic_injective_bounded "XAUUSD" 5 "BTCUSD" 15 (List.Mem.head _)
    (List.Mem.head _) (List.Mem.tail _ (List.Mem.head _)) (List.Mem.tail _ (List.Mem.head _))

/-- Guard of the long branch: a modification is emitted only when the
candidate stop strictly exceeds the existing stop (0 = unset) and is
strictly below the current price. -/
theorem trail_decision_buy_guard (i : TrailInput) (s t : ℚ)
    (h : trail_decision_buy i = some (s, t)) : i.curSl < s ∧ s < i.price := by
  simp only [trail_decision_buy] at h
  split_ifs at h with h1 h2 h3 h4
  · rw [Option.some.injEq, Prod.mk.injEq] at h
    obtain ⟨h5, -⟩ := h
    subst h5
    exact h4

/-- Guard of the short branch: a modification is emitted only when the
candidate stop is strictly below the existing stop (or no stop is set)
and strictly above the current price. -/
theorem trail_decision_sell_guard (i : TrailInput) (s t : ℚ)
    (h : trail_decision_sell i = some (s, t)) :
    (i.curSl = 0 ∨ s < i.curSl) ∧ i.price < s := by
  simp only [trail_decision_sell] at h
  split_ifs at h with h1 h2 h3 h4
  · rw [Option.some.injEq, Prod.mk.injEq] at h
    obtain ⟨h5, -⟩ := h
    subst h5
    exact h4

theorem trail_step_buy_le (c : ℚ) (i : TrailInput) : c ≤ trail_step_buy c i := by
  unfold trail_step_buy
  cases hd : trail_decision_buy { i with curSl := c } with
  | none => exact le_refl c
  | some p =>
    have hg := trail_decision_buy_guard _ p.1 p.2 (by rw [hd])
    exact le_of_lt hg.1

theorem foldl_trail_step_buy_le (l : List TrailInput) (c : ℚ) :
    c ≤ l.foldl trail_step_buy c := by
  induction l generalizing c with
  | nil => exact le_refl c
  | cons i l ih =>
    calc c ≤ trail_step_buy c i := trail_step_buy_le c i
      _ ≤ l.foldl trail_step_buy (trail_step_buy c i) := ih _

/-- C7: the trailer modifies a stop only in the favorable direction and
only to a value strictly inside the current price: for a long position
only when the candidate strictly exceeds the existing stop and is
strictly below the current price (short positions mirrored with inverted
comparisons), hence repeated recomputations never decrease a long
position's stop. -/
theorem trailing_favorable_only :
    (∀ (i : TrailInput) (s t : ℚ), trail_decision_buy i = some (s, t) →
      i.curSl < s ∧ s < i.price) ∧
    (∀ (i : TrailInput) (s t : ℚ), trail_decision_sell i = some (s, t) →
      (i.curSl = 0 ∨ s < i.curSl) ∧ i.price < s) ∧
    (∀ (l : List TrailInput) (c : ℚ), c ≤ l.foldl trail_step_buy c) :=
  ⟨trail_decision_buy_guard, trail_decision_sell_guard, foldl_trail_step_buy_le⟩

/-- C7 witness: the long-guard conclusion at a concrete position
(entry 100, profit 50, volume 1, unit economics, price 200, no stop yet),
where the decision is some(150, -150). -/
theorem trailing_favorable_only_witness : (0:ℚ) < 150 ∧ (150:ℚ) < 200 := by
  have hd : trail_decision_buy ⟨100, 50, 1, 1, 1, 200, false, 0, 1, 0⟩ = some (150, -150) := by
    norm_num [trail_decision_buy, trail_candidate_buy, profit_units, ratTrunc,
      RISK_PER_TRADE, RISK_REWARD_FACTOR]
  exact trailing_favorable_only.1 ⟨100, 50, 1, 1, 1, 200, false, 0, 1, 0⟩ 150 (-150) hd

/-- Every order remaining after cleanup was tracked before. -/
theorem cleanup_orders_subset (orders : List TrackedOrder) (live : List Nat)
    (bars : String → Nat → Option Int) (cancel : Nat → CancelOutcome) (x : TrackedOrder)
    (hx : x ∈ (cleanup_orders orders live bars cancel).1) : x ∈ orders := by
  induction orders with
  | nil => simp [cleanup_orders] at hx
  | cons a rest ih =>
    simp only [cleanup_orders] at hx
    rcases hA : order_action live bars cancel a <;> simp only [hA] at hx
    · exact List.mem_cons_of_mem _ (ih hx)
    · rcases List.mem_cons.mp hx with rfl | hx2
      · exact List.mem_cons_self _ _
      · exact List.mem_cons_of_mem _ (ih hx2)
    · exact List.mem_cons_of_mem _ (ih hx)
    · rcases List.mem_cons.mp hx with rfl | hx2
      · exact List.mem_cons_self _ _
      · exact List.mem_cons_of_mem _ (ih hx2)

/-- An expired live order whose cancel call returns (success or failure)
is removed. -/
theorem order_action_of_expired (live : List Nat) (bars : String → Nat → Option Int)
    (cancel : Nat → CancelOutcome) (o : TrackedOrder)
    (hl : live.contains o.ticket = true) (b : Int)
    (hb : bars o.symbol o.timeframe = some b)
    (hexp : ORDER_EXPIRATION_BARS ≤ b - o.placementBar)
    (hc : cancel o.ticket ≠ CancelOutcome.raised) :
    order_action live bars cancel o = OrderAction.cancelDrop := by
  unfold order_action
  rw [hl, hb]
  simp only [Bool.not_true, Bool.false_eq_true, if_false]
  rw [if_pos hexp]
  cases hcan : cancel o.ticket with
  | ok => rfl
  | failed => rfl
  | raised => exact absurd hcan hc

/-- Ledger-level consequence: an expired live tracked order is dropped
whenever its cancel call returns, even when the result reports failure. -/
theorem cleanup_orders_drops_expired (orders : List TrackedOrder) (live : List Nat)
    (bars : String → Nat → Option Int) (cancel : Nat → CancelOutcome) (o : TrackedOrder)
    (ho : o ∈ orders) (hl : live.contains o.ticket = true) (b : Int)
    (hb : bars o.symbol o.timeframe = some b)
    (hexp : ORDER_EXPIRATION_BARS ≤ b - o.placementBar)
    (hc : cancel o.ticket ≠ CancelOutcome.raised) :
    o ∉ (cleanup_orders orders live bars cancel).1 ∧
    o.ticket ∈ (cleanup_orders orders live bars cancel).2 := by
  have hact : order_action live bars cancel o = OrderAction.cancelDrop :=
    order_action_of_expired live bars cancel o hl b hb hexp hc
  induction orders with
  | nil => exact absurd ho (List.not_mem_nil o)
  | cons a rest ih =>
    simp only [cleanup_orders]
    by_cases hoa : o = a
    · subst hoa
      rw [hact]
      constructor
      · intro hmem
        by_cases hor : o ∈ rest
        · exact (ih hor).1 hmem
        · exact hor (cleanup_orders_subset rest live bars cancel o hmem)
      · exact List.mem_cons_self o.ticket _
    · have hor : o ∈ rest := (List.mem_cons.mp ho).resolve_left hoa
      have ihr := ih hor
      rcases hA : order_action live bars cancel a <;> simp only [hA]
      · exact ihr
      · refine ⟨?_, ihr.2⟩
        intro hmem
        rcases List.mem_cons.mp hmem with rfl | hx2
        · exact hoa rfl
        · exact ihr.1 hx2
      · exact ⟨ihr.1, List.mem_cons_of_mem _ ihr.2⟩
      · refine ⟨?_, List.mem_cons_of_mem _ ihr.2⟩
        intro hmem
        rcases List.mem_cons.mp hmem with rfl | hx2
        · exact hoa rfl
        · exact ihr.1 hx2

/-- C3 (counterexample): a tracked order (ticket 7, placed at bar 100)
that is still live and expired (current bar 105) is removed from the
ledger even though the cancel request reports failure — contradicting the
claim that on cancel failure the entry remains for retry. -/
theorem cleanup_dropped_despite_failed_cancel :
    cleanup_orders [⟨7, "XAUUSD", 5, 0, 100, 10000⟩] [7]
      (fun _ _ => some 105) (fun _ => CancelOutcome.failed) = ([], [7]) := rfl

/-- An expired live order is kept only when the cancel call raises. -/
theorem order_action_of_expired_raised (live : List Nat) (bars : String → Nat → Option Int)
    (cancel : Nat → CancelOutcome) (o : TrackedOrder)
    (hl : live.contains o.ticket = true) (b : Int)
    (hb : bars o.symbol o.timeframe = some b)
    (hexp : ORDER_EXPIRATION_BARS ≤ b - o.placementBar)
    (hc : cancel o.ticket = CancelOutcome.raised) :
    order_action live bars cancel o = OrderAction.cancelKeep := by
  unfold order_action
  rw [hl, hb]
  simp only [Bool.not_true, Bool.false_eq_true, if_false]
  rw [if_pos hexp, hc]
  simp

/-- Ledger-level consequence: the entry survives for retry only when the
cancel call raises an exception. -/
theorem cleanup_orders_keeps_raised (orders : List TrackedOrder) (live : List Nat)
    (bars : String → Nat → Option Int) (cancel : Nat → CancelOutcome) (o : TrackedOrder)
    (ho : o ∈ orders) (hl : live.contains o.ticket = true) (b : Int)
    (hb : bars o.symbol o.timeframe = some b)
    (hexp : ORDER_EXPIRATION_BARS ≤ b - o.placementBar)
    (hc : cancel o.ticket = CancelOutcome.raised) :
    o ∈ (cleanup_orders orders live bars cancel).1 ∧
    o.ticket ∈ (cleanup_orders orders live bars cancel).2 := by
  have hact : order_action live bars cancel o = OrderAction.cancelKeep :=
    order_action_of_expired_raised live bars cancel o hl b hb hexp hc
  induction orders with
  | nil => exact absurd ho (List.not_mem_nil o)
  | cons a rest ih =>
    simp only [cleanup_orders]
    by_cases hoa : o = a
    · subst hoa
      rw [hact]
      exact ⟨List.mem_cons_self _ _, List.mem_cons_self _ _⟩
    · have hor : o ∈ rest := (List.mem_cons.mp ho).resolve_left hoa
      have ihr := ih hor
      rcases hA : order_action live bars cancel a <;> simp only [hA]
      · exact ihr
      · exact ⟨List.mem_cons_of_mem _ ihr.1, ihr.2⟩
      · exact ⟨ihr.1, List.mem_cons_of_mem _ ihr.2⟩
      · exact ⟨List.mem_cons_of_mem _ ihr.1, List.mem_cons_of_mem _ ihr.2⟩

/-- C3 (amended): for every stale tracked order (still live, bar age at
least ORDER_EXPIRATION_BARS) a cancel request is issued and the entry is
dropped from the ledger regardless of the reported cancel result — the
result is ignored, so cancelling an already-gone order is tolerated — and
the entry remains tracked for retry only when the cancel call raises an
exception. -/
theorem cleanup_cancel_result_ignored :
    ∀ (orders : List TrackedOrder) (live : List Nat) (bars : String → Nat → Option Int)
      (cancel : Nat → CancelOutcome) (o : TrackedOrder) (b : Int),
      o ∈ orders → live.contains o.ticket = true →
      bars o.symbol o.timeframe = some b →
      ORDER_EXPIRATION_BARS ≤ b - o.placementBar →
      (cancel o.ticket ≠ CancelOutcome.raised →
        o ∉ (cleanup_orders orders live bars cancel).1 ∧
        o.ticket ∈ (cleanup_orders orders live bars cancel).2) ∧
      (cancel o.ticket = CancelOutcome.raised →
        o ∈ (cleanup_orders orders live bars cancel).1 ∧
        o.ticket ∈ (cleanup_orders orders live bars cancel).2) :=
  fun orders live bars cancel o b ho hl hb hexp =>
    ⟨fun hc => cleanup_orders_drops_expired orders live bars cancel o ho hl b hb hexp hc,
     fun hc => cleanup_orders_keeps_raised orders live bars cancel o ho hl b hb hexp hc⟩

/-- C3 witness: the amended statement applied to the concrete stale order
with ticket 7 whose cancel reports success. -/
theorem cleanup_cancel_result_ignored_witness :
    (⟨7, "XAUUSD", 5, 0, 100, 10000⟩ : TrackedOrder) ∉
      (cleanup_orders [⟨7, "XAUUSD", 5, 0, 100, 10000⟩] [7] (fun _ _ => some 105)
        (fun _ => CancelOutcome.ok)).1 ∧
    (7:Nat) ∈ (cleanup_orders [⟨7, "XAUUSD", 5, 0, 100, 10000⟩] [7] (fun _ _ => some 105)
        (fun _ => CancelOutcome.ok)).2 :=
  (cleanup_cancel_result_ignored [⟨7, "XAUUSD", 5, 0, 100, 10000⟩] [7] (fun _ _ => some 105)
    (fun _ => CancelOutcome.ok) ⟨7, "XAUUSD", 5, 0, 100, 10000⟩ 105
    (List.Mem.head _) rfl rfl (by decide)).1 (fun h => CancelOutcome.noConfusion h)

/-- process_symbol_timeframe never changes dailyProfitLoss. -/
theorem pst_dailyProfitLoss (st : EngineState) (inp : TickInput) (s : String) (t : Nat) :
    (process_symbol_timeframe st inp s t).1.dailyProfitLoss = st.dailyProfitLoss := by
  unfold process_symbol_timeframe
  repeat' split
  all_goals first
  | rfl
  | simp [apply_ite (fun x : EngineState × PSTEffect => x.1.dailyProfitLoss)]

/-- process_symbol_timeframe never changes equityAtStart. -/
theorem pst_equityAtStart (st : EngineState) (inp : TickInput) (s : String) (t : Nat) :
    (process_symbol_timeframe st inp s t).1.equityAtStart = st.equityAtStart := by
  unfold process_symbol_timeframe
  repeat' split
  all_goals first
  | rfl
  | simp [apply_ite (fun x : EngineState × PSTEffect => x.1.equityAtStart)]

theorem foldl_pst_dailyProfitLoss (inp : TickInput) (l : List (String × Nat))
    (st : EngineState) (effs : List PSTEffect) :
    (l.foldl (fun acc p =>
      let r := process_symbol_timeframe acc.1 inp p.1 p.2
      (r.1, acc.2 ++ [r.2])) (st, effs)).1.dailyProfitLoss = st.dailyProfitLoss := by
  induction l generalizing st effs with
  | nil => rfl
  | cons p l ih =>
    simp only [List.foldl_cons]
    rw [ih]
    exact pst_dailyProfitLoss st inp p.1 p.2

/-- The per-symbol loop never changes dailyProfitLoss. -/
theorem process_all_dailyProfitLoss (st : EngineState) (inp : TickInput) :
    (process_all st inp).1.dailyProfitLoss = st.dailyProfitLoss :=
  foldl_pst_dailyProfitLoss inp ALL_PAIRS st []

/-- is_new_trading_day only touches lastTradingDay. -/
theorem is_new_trading_day_fst_dailyProfitLoss (st : EngineState) (inp : TickInput) :
    (is_new_trading_day st inp).1.dailyProfitLoss = st.dailyProfitLoss := by
  unfold is_new_trading_day
  split <;> rfl

/-- The rollover either keeps dailyProfitLoss or resets it to 0. -/
theorem apply_rollover_dailyProfitLoss (st : EngineState) (inp : TickInput) (eq : ℚ) :
    (apply_rollover st inp eq).dailyProfitLoss = st.dailyProfitLoss ∨
    (apply_rollover st inp eq).dailyProfitLoss = 0 := by
  simp only [apply_rollover]
  split
  · right
    rfl
  · left
    exact is_new_trading_day_fst_dailyProfitLoss st inp

/-- The pre-gate updates either keep dailyProfitLoss or reset it to 0. -/
theorem pre_gate_dailyProfitLoss (st : EngineState) (inp : TickInput) (eq : ℚ) :
    (pre_gate st inp eq).dailyProfitLoss = st.dailyProfitLoss ∨
    (pre_gate st inp eq).dailyProfitLoss = 0 := by
  unfold pre_gate
  rcases apply_rollover_dailyProfitLoss
      (if st.equityHigh < eq then { st with equityHigh := eq } else st) inp eq with h | h
  · left
    rw [h]
    split <;> rfl
  · right
    exact h

/-- One tick either keeps dailyProfitLoss or resets it to 0. -/
theorem onTimer_dailyProfitLoss (st : EngineState) (inp : TickInput) :
    (onTimer st inp).1.dailyProfitLoss = st.dailyProfitLoss ∨
    (onTimer st inp).1.dailyProfitLoss = 0 := by
  unfold onTimer
  by_cases h1 : inp.connected = false
  · rw [if_pos h1]
    left
    rfl
  · rw [if_neg h1]
    cases he : inp.equity with
    | none =>
      simp only [he]
      left
      trivial
    | some eq =>
      simp only [he]
      split_ifs with h2 h3 h4
      · exact pre_gate_dailyProfitLoss st inp eq
      · exact pre_gate_dailyProfitLoss st inp eq
      · exact pre_gate_dailyProfitLoss st inp eq
      · rw [process_all_dailyProfitLoss]
        exact pre_gate_dailyProfitLoss st inp eq

/-- dailyProfitLoss is 0 in every reachable state. -/
theorem reachable_dailyProfitLoss_zero : ∀ st, Reachable st → st.dailyProfitLoss = 0 := by
  intro st h
  induction h with
  | init e => rfl
  | step st inp hr ih =>
    rcases onTimer_dailyProfitLoss st inp with h1 | h1
    · rw [h1]
      exact ih
    · exact h1

/-- On a connected tick with account data, the tick halts with the
daily-loss reason exactly when the post-rollover daily loss breaches the
percentage limit. -/
theorem onTimer_dailyLoss_iff (st : EngineState) (inp : TickInput) (eq : ℚ)
    (hc : inp.connected = true) (he : inp.equity = some eq) :
    ((onTimer st inp).2.halted = some HaltReason.dailyLoss ↔
      (pre_gate st inp eq).dailyProfitLoss ≤
        -((pre_gate st inp eq).equityAtStart * (DAILY_LOSS_PERCENT / 100))) := by
  unfold onTimer
  have h1 : ¬(inp.connected = false) := by simp [hc]
  rw [if_neg h1]
  simp only [he]
  split_ifs with h2 h3 h4
  · simp [h2]
  · simp [h2]
  · simp [h2]
  · simp [h2]

/-- When the daily-loss breaker fires, the tick produces no effects at
all and the state carries only the pre-gate updates. -/
theorem onTimer_dailyLoss_halts_effects (st : EngineState) (inp : TickInput) (eq : ℚ)
    (hc : inp.connected = true) (he : inp.equity = some eq)
    (hd : (pre_gate st inp eq).dailyProfitLoss ≤
      -((pre_gate st inp eq).equityAtStart * (DAILY_LOSS_PERCENT / 100))) :
    (onTimer st inp).2 = ⟨some HaltReason.dailyLoss, false, [], []⟩ ∧
    (onTimer st inp).1 = pre_gate st inp eq := by
  unfold onTimer
  have h1 : ¬(inp.connected = false) := by simp [hc]
  rw [if_neg h1]
  simp only [he]
  rw [if_pos hd]
  exact ⟨rfl, rfl⟩

theorem pre_gate_witness (p : ℚ) :
    pre_gate (witness_state p) witness_input 10000 = witness_state p := by
  unfold pre_gate apply_rollover is_new_trading_day
  norm_num [witness_state, witness_input]

/-- C4: on a connected tick with account data, the engine halts the cycle
with the daily-loss reason if and only if the post-rollover
dailyProfitLoss is at most minus equityAtSessionStart·dailyLossPercent/100,
and when it halts it produces no order placements, no position
modifications and no cleanup: the effect record is exactly the halt. -/
theorem daily_loss_gate (st : EngineState) (inp : TickInput) (eq : ℚ)
    (hc : inp.connected = true) (he : inp.equity = some eq) :
    ((onTimer st inp).2.halted = some HaltReason.dailyLoss ↔
      (pre_gate st inp eq).dailyProfitLoss ≤
        -((pre_gate st inp eq).equityAtStart * (DAILY_LOSS_PERCENT / 100))) ∧
    ((pre_gate st inp eq).dailyProfitLoss ≤
        -((pre_gate st inp eq).equityAtStart * (DAILY_LOSS_PERCENT / 100)) →
      (onTimer st inp).2 = ⟨some HaltReason.dailyLoss, false, [], []⟩) :=
  ⟨onTimer_dailyLoss_iff st inp eq hc he,
   fun hd => (onTimer_dailyLoss_halts_effects st inp eq hc he hd).1⟩

/-- C4 witness: with equityAtSessionStart 10000 and 5 percent limit 500,
a tick at dailyProfitLoss -501 halts with the daily-loss reason and no
effects, while a tick at -499 does not halt for daily loss. -/
theorem daily_loss_gate_witness :
    (onTimer (witness_state (-501)) witness_input).2
      = ⟨some HaltReason.dailyLoss, false, [], []⟩ ∧
    ¬((onTimer (witness_state (-499)) witness_input).2.halted
      = some HaltReason.dailyLoss) := by
  have h1 := daily_loss_gate (witness_state (-501)) witness_input 10000 rfl rfl
  have h2 := daily_loss_gate (witness_state (-499)) witness_input 10000 rfl rfl
  constructor
  · apply h1.2
    rw [pre_gate_witness]
    norm_num [witness_state, DAILY_LOSS_PERCENT]
  · intro hh
    have hc2 := h2.1.mp hh
    rw [pre_gate_witness] at hc2
    norm_num [witness_state, DAILY_LOSS_PERCENT] at hc2

/-- C5 (counterexample): a reachable execution does take the daily-loss
halt branch even though dailyProfitLoss is 0: starting from an account
reporting equity 0, the first mid-week tick re-baselines
equityAtSessionStart to 0, the limit becomes 0, and 0 ≤ -0 halts the
cycle. -/
theorem daily_loss_branch_reachable_cex :
    Reachable (init_state (some 0)) ∧
    (init_state (some 0)).dailyProfitLoss = 0 ∧
    (onTimer (init_state (some 0)) zero_equity_input).2.halted
      = some HaltReason.dailyLoss := by
  refine ⟨Reachable.init (some 0), rfl, ?_⟩
  have hd : (pre_gate (init_state (some 0)) zero_equity_input 0).dailyProfitLoss ≤
      -((pre_gate (init_state (some 0)) zero_equity_input 0).equityAtStart
        * (DAILY_LOSS_PERCENT / 100)) := by
    unfold pre_gate apply_rollover is_new_trading_day
    norm_num [init_state, zero_equity_input, DAILY_LOSS_PERCENT]
    simp
  have h := onTimer_dailyLoss_halts_effects (init_state (some 0)) zero_equity_input 0
    rfl rfl hd
  rw [h.1]

/-- C5 (amended): in every reachable engine state daily_profit_loss is 0
(initialized to 0, reset to 0 on each new trading day, never assigned any
other value); consequently the daily-loss halt branch is taken only when
the post-rollover equity at session start is nonpositive, and is never
taken on a tick whose equity at session start is positive. -/
theorem daily_pnl_always_zero :
    (∀ st, Reachable st → st.dailyProfitLoss = 0) ∧
    (∀ (st : EngineState) (inp : TickInput) (eq : ℚ), Reachable st →
      inp.connected = true → inp.equity = some eq →
      0 < (pre_gate st inp eq).equityAtStart →
      ¬((onTimer st inp).2.halted = some HaltReason.dailyLoss)) := by
  constructor
  · exact reachable_dailyProfitLoss_zero
  · intro st inp eq hr hc he hpos hhalt
    have hcond := (onTimer_dailyLoss_iff st inp eq hc he).mp hhalt
    have hpnl : (pre_gate st inp eq).dailyProfitLoss = 0 := by
      rcases pre_gate_dailyProfitLoss st inp eq with h | h
      · rw [h]
        exact reachable_dailyProfitLoss_zero st hr
      · exact h
    rw [hpnl] at hcond
    have hlim : 0 < (pre_gate st inp eq).equityAtStart * (DAILY_LOSS_PERCENT / 100) := by
      apply mul_pos hpos
      norm_num [DAILY_LOSS_PERCENT]
    linarith

/-- C5 witness: the amended statement applied at the concrete reachable
state with positive starting equity 10000: that tick does not halt for
daily loss. -/
theorem daily_pnl_always_zero_witness :
    ¬((onTimer (init_state (some 10000)) witness_input).2.halted
      = some HaltReason.dailyLoss) :=
  daily_pnl_always_zero.2 (init_state (some 10000)) witness_input 10000
    (Reachable.init (some 10000)) rfl rfl
    (by
      unfold pre_gate apply_rollover is_new_trading_day
      norm_num [init_state, witness_input]
      simp)

/-- At or above the global trade cap, process_symbol_timeframe returns
immediately: no trailing, no modifications, no order. -/
theorem pst_capped (st : EngineState) (inp : TickInput) (s : String) (t : Nat)
    (h : MAX_GLOBAL_TRADES ≤ inp.positions.length + inp.liveOrders.length) :
    process_symbol_timeframe st inp s t = (st, noEffect s t) := by
  unfold process_symbol_timeframe
  rw [if_pos h]

theorem foldl_pst_capped (inp : TickInput)
    (h : MAX_GLOBAL_TRADES ≤ inp.positions.length + inp.liveOrders.length)
    (l : List (String × Nat)) (st : EngineState) (effs : List PSTEffect) :
    (l.foldl (fun acc p =>
      let r := process_symbol_timeframe acc.1 inp p.1 p.2
      (r.1, acc.2 ++ [r.2])) (st, effs))
      = (st, effs ++ l.map (fun p => noEffect p.1 p.2)) := by
  induction l generalizing st effs with
  | nil => simp
  | cons p l ih =>
    simp only [List.foldl_cons, pst_capped _ inp p.1 p.2 h, List.map_cons]
    rw [ih]
    simp

/-- At or above the global trade cap, the whole per-symbol loop is a
no-op emitting only no-op effect records. -/
theorem process_all_capped (st : EngineState) (inp : TickInput)
    (h : MAX_GLOBAL_TRADES ≤ inp.positions.length + inp.liveOrders.length) :
    process_all st inp = (st, ALL_PAIRS.map (fun p => noEffect p.1 p.2)) := by
  unfold process_all
  rw [foldl_pst_capped inp h]
  simp

/-- C2 (amended): on a connected tick with account data that passes the
daily-loss and drawdown breakers, cleanup of expired orders always runs;
and when total open positions plus pending orders is at least
MAX_GLOBAL_TRADES, every per-symbol effect of the cycle is a no-op: no
new-order evaluation, but also no trailing-stop management and no
position modifications, because the capacity check precedes the
manage-positions call inside per-symbol processing. -/
theorem capacity_gate (st : EngineState) (inp : TickInput) (eq : ℚ)
    (hc : inp.connected = true) (he : inp.equity = some eq)
    (hnl : ¬((pre_gate st inp eq).dailyProfitLoss ≤
      -((pre_gate st inp eq).equityAtStart * (DAILY_LOSS_PERCENT / 100))))
    (hnd : ¬(MAX_DRAWDOWN_PERCENT ≤ drawdown_of (pre_gate st inp eq).equityHigh eq)) :
    (onTimer st inp).2.cleanupRan = true ∧
    (MAX_GLOBAL_TRADES ≤ inp.positions.length + inp.liveOrders.length →
      ∀ e ∈ (onTimer st inp).2.perSymbol,
        e.trailInvoked = false ∧ e.modifications = [] ∧ e.placed = none) := by
  unfold onTimer
  have h1 : ¬(inp.connected = false) := by simp [hc]
  rw [if_neg h1]
  simp only [he]
  rw [if_neg hnl, if_neg hnd]
  split_ifs with hs
  · exact ⟨rfl, fun _ e hmem => absurd hmem (List.not_mem_nil e)⟩
  · refine ⟨rfl, fun hcap e hmem => ?_⟩
    simp only [process_all_capped _ inp hcap] at hmem
    simp only [List.mem_map] at hmem
    obtain ⟨p, -, rfl⟩ := hmem
    exact ⟨rfl, rfl, rfl⟩

/-- C2 witness: the amended statement applied at a concrete connected
tick passing both breakers. -/
theorem capacity_gate_witness :
    (onTimer (witness_state 0) witness_input).2.cleanupRan = true ∧
    (MAX_GLOBAL_TRADES ≤ witness_input.positions.length + witness_input.liveOrders.length →
      ∀ e ∈ (onTimer (witness_state 0) witness_input).2.perSymbol,
        e.trailInvoked = false ∧ e.modifications = [] ∧ e.placed = none) :=
  capacity_gate (witness_state 0) witness_input 10000 rfl rfl
    (by
      rw [pre_gate_witness]
      norm_num [witness_state, DAILY_LOSS_PERCENT])
    (by
      rw [pre_gate_witness]
      norm_num [witness_state, drawdown_of, MAX_DRAWDOWN_PERCENT])

theorem magic_of_xau : magic_of "XAUUSD" 5 = 10000 := by rfl

/-- C2 (counterexample): on a connected mid-week tick at the global trade
cap (15 open positions), cleanup runs and no orders are evaluated, but —
contrary to the claim — trailing-stop management does not run either: all
36 per-symbol effects are no-ops with no modifications, although the tick
carries a profitable XAUUSD position for which the same tick below the
cap emits a trailing stop modification to 150. -/
theorem capacity_blocks_trailing_cex :
    MAX_GLOBAL_TRADES ≤ cap_input.positions.length + cap_input.liveOrders.length ∧
    (onTimer (init_state (some 10000)) cap_input).2.halted = none ∧
    (onTimer (init_state (some 10000)) cap_input).2.cleanupRan = true ∧
    (onTimer (init_state (some 10000)) cap_input).2.perSymbol.length = 36 ∧
    ((onTimer (init_state (some 10000)) cap_input).2.perSymbol.all
      (fun e => !e.trailInvoked && e.modifications.isEmpty && e.placed.isNone)) = true ∧
    manage_existing_positions (init_state (some 10000)) uncapped_input "XAUUSD" 5 1
      = [(100, 150, -150)] := by
  have hcap : MAX_GLOBAL_TRADES ≤ cap_input.positions.length + cap_input.liveOrders.length := by
    simp [cap_input, MAX_GLOBAL_TRADES]
  have hpre : pre_gate (init_state (some 10000)) cap_input 10000
      = { init_state (some 10000) with lastTradingDay := some 1 } := by
    unfold pre_gate apply_rollover is_new_trading_day
    norm_num [init_state, cap_input]
    simp
  have hnl : ¬((({ init_state (some 10000) with lastTradingDay := some 1 }
        : EngineState)).dailyProfitLoss ≤
      -((({ init_state (some 10000) with lastTradingDay := some 1 }
        : EngineState)).equityAtStart * (DAILY_LOSS_PERCENT / 100))) := by
    norm_num [init_state, DAILY_LOSS_PERCENT]
  have hnd : ¬(MAX_DRAWDOWN_PERCENT ≤ drawdown_of
      ((({ init_state (some 10000) with lastTradingDay := some 1 }
        : EngineState)).equityHigh) 10000) := by
    norm_num [init_state, drawdown_of, MAX_DRAWDOWN_PERCENT]
  have hpa : ∀ st2, process_all st2 cap_input
      = (st2, ALL_PAIRS.map (fun p => noEffect p.1 p.2)) :=
    fun st2 => process_all_capped st2 cap_input hcap
  have hrun : (onTimer (init_state (some 10000)) cap_input).2
      = ⟨none, true, [], ALL_PAIRS.map (fun p => noEffect p.1 p.2)⟩ := by
    unfold onTimer
    rw [if_neg (show ¬(cap_input.connected = false) by simp [cap_input])]
    simp only [show cap_input.equity = some (10000:ℚ) from rfl, hpre]
    rw [if_neg hnl, if_neg hnd]
    rw [if_neg (show ¬(ENABLE_SESSION = true ∧
      is_trading_session cap_input.weekday cap_input.hour cap_input.minute = false) by
        simp [cap_input, is_trading_session, ENABLE_SESSION])]
    simp only [show (({ init_state (some (10000:ℚ)) with lastTradingDay := some 1 }
      : EngineState)).activeOrders = [] from rfl]
    simp only [cleanup_orders, hpa]
  refine ⟨hcap, ?_, ?_, ?_, ?_, ?_⟩
  · rw [hrun]
  · rw [hrun]
  · rw [hrun]
    rfl
  · rw [hrun]
    rfl
  · have hq : uncapped_input.quote "XAUUSD" = some cap_quote := by
      simp [uncapped_input, cap_input]
    unfold manage_existing_positions
    simp only [show uncapped_input.positions = [cap_good_position] from rfl,
      List.foldr_cons, List.foldr_nil, hq]
    norm_num [cap_good_position, cap_quote, init_state, ATR_FLOOR_SYMBOLS, magic_of_xau,
      trail_decision_buy, trail_candidate_buy, profit_units, ratTrunc,
      RISK_PER_TRADE, RISK_REWARD_FACTOR]
